import Mathlib

/-!
Verification of the ReconX frontend (viz-recon-main and reconx/ui) against its
specification.  The TypeScript source is shallowly embedded: JavaScript strings
become Lean `String`s, `null`/`undefined`-able values become `Option`s, and the
handful of JS runtime primitives used by the code (`split`, `trim`, `join`,
`padStart`, `startsWith`, truthiness, `||`, `??`) are modelled explicitly below.
`Date` objects are modelled as a validity flag plus the component views the code
reads through the `get*`/`getUTC*` accessors; the platform parsing step
(`new Date(string)`) is outside the embedding, so functions receive the parsed
date.
-/

namespace ReconX

/-! ## JS runtime primitives -/

/-- JS truthiness of a string: every string except the empty one is truthy. -/
def truthyStr (s : String) : Bool := !(s == "")

/-- JS truthiness of a possibly-`undefined` string (`!!x`). -/
def truthyOptStr : Option String → Bool
  | some s => truthyStr s
  | none => false

/-- JS `a || b` on strings where `a` may be `undefined`: falls through on
`undefined` and on the (falsy) empty string. -/
def jsOrStr (a : Option String) (b : String) : String :=
  match a with
  | some s => if truthyStr s then s else b
  | none => b

/-- JS `a || b` where both sides may be `undefined`. -/
def jsOrOptStr (a b : Option String) : Option String :=
  match a with
  | some s => if truthyStr s then some s else b
  | none => b

/-- JS `String.prototype.startsWith`, via the underlying character list. -/
def jsStartsWith (s pre : String) : Bool := pre.data.isPrefixOf s.data

/-- JS `String.prototype.endsWith`, via the underlying character list. -/
def jsEndsWith (s suf : String) : Bool := suf.data.isSuffixOf s.data

/-- JS `String.prototype.padStart(n, c)`: prepend copies of `c` until the
length reaches `n`. -/
def jsPadStart (s : String) (n : Nat) (c : Char) : String :=
  if n ≤ s.length then s else String.mk (List.replicate (n - s.length) c) ++ s

/-- Characters removed by JS `String.prototype.trim` (the whitespace characters
that can actually occur in the wordlist text boxes). -/
def isJsWhitespace (c : Char) : Bool :=
  c == ' ' || c == '\t' || c == '\n' || c == '\r' || c == '\x0b' || c == '\x0c'

/-- JS `String.prototype.trim` on a character list: drop leading and trailing
whitespace. -/
def jsTrimChars (l : List Char) : List Char :=
  ((l.dropWhile isJsWhitespace).reverse.dropWhile isJsWhitespace).reverse

/-- Worker for `split(/\r?\n/)`: accumulate the current (reversed) segment and
cut at each `"\r\n"` or `"\n"`. -/
def splitReLinesAux : List Char → List Char → List (List Char)
  | [], acc => [acc.reverse]
  | '\r' :: '\n' :: xs, acc => acc.reverse :: splitReLinesAux xs []
  | '\n' :: xs, acc => acc.reverse :: splitReLinesAux xs []
  | x :: xs, acc => splitReLinesAux xs (x :: acc)

/-- JS `s.split(/\r?\n/)` on the character list of `s`. -/
def splitReLines (l : List Char) : List (List Char) := splitReLinesAux l []

/-- Worker for a single-character JS `split`. -/
def splitOnCharAux (c : Char) : List Char → List Char → List (List Char)
  | [], acc => [acc.reverse]
  | x :: xs, acc =>
    if x = c then acc.reverse :: splitOnCharAux c xs []
    else splitOnCharAux c xs (x :: acc)

/-- JS `s.split(c)` for a one-character separator, on character lists. -/
def splitOnChar (c : Char) (l : List Char) : List (List Char) :=
  splitOnCharAux c l []

/-- JS `Array.prototype.join(c)` for a one-character separator, on character
lists. -/
def joinWithChar (c : Char) : List (List Char) → List Char
  | [] => []
  | [l] => l
  | l :: l2 :: ls => l ++ c :: joinWithChar c (l2 :: ls)

/-- JS `s.split(c)` lifted to `String`. -/
def jsSplitOn (c : Char) (s : String) : List String :=
  (splitOnChar c s.data).map String.mk

/-- JS `array.join(c)` lifted to `String`. -/
def jsJoin (c : Char) (ls : List String) : String :=
  String.mk (joinWithChar c (ls.map String.data))

/-! ## Dates (`src/viz-recon-main/src/utils/date.ts`) -/

/-- One component view of a JS `Date` (the values returned by
`getFullYear`/`getMonth`/`getDate`/`getHours`/`getMinutes`/`getSeconds`, or
their UTC counterparts).  `month` is the raw 0-based `getMonth` value; the
source adds 1 when formatting. -/
structure DateParts where
  year : Int
  month : Nat
  day : Nat
  hours : Nat
  minutes : Nat
  seconds : Nat
deriving DecidableEq

/-- A JS `Date` object as observed by the source: valid or not
(`isNaN(d.getTime())`), with its local and UTC component views. -/
structure JSDate where
  valid : Bool
  localParts : DateParts
  utcParts : DateParts
deriving DecidableEq

/-- Function `pad` from date.ts: `String(n).padStart(2, '0')`. -/
def pad (n : Nat) : String := jsPadStart (toString n) 2 '0'

/-- The optional `opts` argument of `formatDateTime`. -/
structure FmtOpts where
  utc : Option Bool := none
  fallback : Option String := none
deriving DecidableEq

/-- Function `formatDateTime` from date.ts.  `value` is the input after the
`new Date(...)` step: `none` models `null`/`undefined`, `some d` the obtained
`Date` (which may be invalid). -/
def formatDateTime (value : Option JSDate) (opts : Option FmtOpts) : String :=
  let utc := (opts.bind FmtOpts.utc).getD false
  let fallback := (opts.bind FmtOpts.fallback).getD "N/A"
  match value with
  | none => fallback
  | some d =>
    if !d.valid then fallback
    else
      let p := if utc then d.utcParts else d.localParts
      toString p.year ++ "-" ++ pad (p.month + 1) ++ "-" ++ pad p.day ++ " " ++
        pad p.hours ++ ":" ++ pad p.minutes ++ ":" ++ pad p.seconds ++
        (if utc then " UTC" else "")

/-! ## API url helpers (`src/viz-recon-main/src/utils/api.ts`) -/

/-- The default `import.meta.env.DEV ? 'http://127.0.0.1:8000' : undefined`. -/
def devDefaultBase (dev : Bool) : Option String :=
  if dev then some "http://127.0.0.1:8000" else none

/-- The stored base `window.localStorage.getItem('API_BASE_URL') || undefined` (the empty
string is falsy and becomes `undefined`). -/
def normalizeStoredBase : Option String → Option String
  | some s => if truthyStr s then some s else none
  | none => none

/-- The call `baseUrl.replace(/\/$/, '')`: remove a single trailing slash. -/
def stripTrailingSlash (s : String) : String :=
  if jsEndsWith s "/" then String.mk s.data.dropLast else s

/-- The `envBase || storedBase || devDefault` chain inside `apiBase`. -/
def apiBaseRaw (envBase storedBase : Option String) (dev : Bool) : Option String :=
  jsOrOptStr (jsOrOptStr envBase (normalizeStoredBase storedBase)) (devDefaultBase dev)

/-- Function `apiBase()` from api.ts, as a function of its environment inputs
(`VITE_API_BASE_URL`, the stored base, the dev flag). -/
def apiBase (envBase storedBase : Option String) (dev : Bool) : String :=
  match apiBaseRaw envBase storedBase dev with
  | some b =>
    if jsStartsWith b "http://" || jsStartsWith b "https://" then stripTrailingSlash b
    else ""
  | none => ""

/-- The line `const p = path.startsWith(...) ? path : slash-prepended path` inside `api`. -/
def normalizePath (path : String) : String :=
  if jsStartsWith path "/" then path else "/" ++ path

/-- Function `api(path)` from api.ts, as a function of the same environment inputs. -/
def api (envBase storedBase : Option String) (dev : Bool) (path : String) : String :=
  let base := apiBase envBase storedBase dev
  let p := normalizePath path
  let isHealth := jsStartsWith p "/healthz"
  let addApiSeg := !isHealth && !(jsStartsWith p "/api/")
  if truthyStr base then base ++ (if addApiSeg then "/api" else "") ++ p
  else (if addApiSeg then "/api" else "") ++ p

/-! ## Data model (`src/viz-recon-main/src/utils/api.ts` interfaces) -/

/-- Field `Job.type`: `'subdomains' | 'ports' | 'dirs'`. -/
inductive JobType where
  | subdomains
  | ports
  | dirs
deriving DecidableEq

/-- Field `Job.state`: `'running' | 'paused' | 'completed' | 'cancelled' | 'failed'`. -/
inductive JobState where
  | running
  | paused
  | completed
  | cancelled
  | failed
deriving DecidableEq

/-- The `Job` interface.  `created_at` is the parsed creation timestamp
(`none` models a missing/empty value, which is falsy in the source). -/
structure Job where
  id : String
  type : JobType
  state : JobState
  progress : Int
  created_at : Option JSDate := none
  targets : Option (List String) := none
  domain : Option String := none
  base_url : Option String := none
deriving DecidableEq

/-- The `Finding` interface (plus the loosely-typed extras the dashboard reads
off the raw JSON: `kind`, `content_type`, `redirected_to`, `code`,
`http_status`).  Numeric-or-string JSON values that the source immediately
coerces with `String(...)` are modelled as the coerced strings; `first_seen`
and `last_seen` are the parsed timestamps (`none` for missing/empty). -/
structure Finding where
  id : Option String := none
  job_id : Option String := none
  kind : Option String := none
  subdomain : Option String := none
  resolved_ips : Option (List String) := none
  first_seen : Option JSDate := none
  last_seen : Option JSDate := none
  target : Option String := none
  port : Option Int := none
  status : Option String := none
  banner : Option String := none
  url : Option String := none
  length : Option Int := none
  title : Option String := none
  content_type : Option String := none
  redirected_to : Option String := none
  code : Option String := none
  http_status : Option String := none
deriving DecidableEq

/-- The `Metrics` interface. -/
structure Metrics where
  findings_total : Int := 0
  findings_per_min : Int := 0
  started_jobs : Option Int := none
  completed_jobs : Option Int := none
  failed_jobs : Option Int := none
deriving DecidableEq

/-! ## Job details modal (`src/viz-recon-main/src/components/Dashboard.tsx`,
`JobDetailsModal`) -/

/-- The `expectedKind` selection in `JobDetailsModal.refresh`:
`jobData.type === 'dirs' ? 'dir' : ... : undefined`.  The job type arrives as a
raw JSON string, so unrecognized values yield `none`. -/
def expectedKindFor (jobType : String) : Option String :=
  if jobType == "dirs" then some "dir"
  else if jobType == "ports" then some "port"
  else if jobType == "subdomains" then some "subdomain"
  else none

/-- The defensive filter in `JobDetailsModal.refresh`:
`findingsData.filter(f => String(f?.job_id ?? '') === sid &&
(!expectedKind || f?.kind === expectedKind))`. -/
def refreshPurify (jobId : String) (jobType : String) (findings : List Finding) :
    List Finding :=
  let sid := jobId
  let expectedKind := expectedKindFor jobType
  findings.filter fun f =>
    (f.job_id.getD "" == sid) &&
      (match expectedKind with
       | none => true
       | some k => f.kind == some k)

/-- The status-bucket expression used by the dirs findings filter and the
status badge: `Number.isFinite(s) ? (s >= 500 ? '5xx' : s >= 400 ? '4xx' :
s >= 300 ? '3xx' : '2xx') : ''`.  `none` models a non-finite `s` (`parseInt`
returned `NaN`). -/
def dirStatusBucket (s : Option Int) : String :=
  match s with
  | some v =>
    if v ≥ 500 then "5xx"
    else if v ≥ 400 then "4xx"
    else if v ≥ 300 then "3xx"
    else "2xx"
  | none => ""

/-- The line `const statusOk = !dirFilter.status || dirFilter.status === bucket`. -/
def dirStatusFilterOk (filterStatus : String) (bucket : String) : Bool :=
  !truthyStr filterStatus || (filterStatus == bucket)

/-! ## Jobs panel controls (`Dashboard`, lines 1293–1316) -/

/-- The right panel tab: `'jobs' | 'results' | 'report'`. -/
inductive RightPanelTab where
  | jobs
  | results
  | report
deriving DecidableEq

/-- Render condition of the pause button:
`rightPanelTab === 'jobs' && job.state === 'running'`. -/
def showPauseButton (tab : RightPanelTab) (st : JobState) : Bool :=
  (tab == RightPanelTab.jobs) && (st == JobState.running)

/-- Render condition of the resume button:
`rightPanelTab === 'jobs' && job.state === 'paused'`. -/
def showResumeButton (tab : RightPanelTab) (st : JobState) : Bool :=
  (tab == RightPanelTab.jobs) && (st == JobState.paused)

/-- Render condition of the cancel button:
`rightPanelTab === 'jobs' && (job.state === 'running' || job.state === 'paused')`. -/
def showCancelButton (tab : RightPanelTab) (st : JobState) : Bool :=
  (tab == RightPanelTab.jobs) && ((st == JobState.running) || (st == JobState.paused))

/-! ## Scan submit guards -/

/-- The fields of the `NewScan` form in `src/reconx/ui/src/modules/Dashboard.tsx`
that its `valid` expression reads. -/
structure NewScanForm where
  authorized : Bool
  domain : Option String := none
  targets : Option (List String) := none
  base_url : Option String := none
deriving DecidableEq

/-- Expression `valid` from `NewScan` (reconx/ui): `form.authorized &&
((kind==='subdomains' && !!form.domain) || (kind==='ports' &&
Array.isArray(form.targets) && form.targets.length>0) || (kind==='dirs' &&
!!form.base_url))`. -/
def newScanValid (kind : JobType) (f : NewScanForm) : Bool :=
  f.authorized &&
    (((kind == JobType.subdomains) && truthyOptStr f.domain) ||
     ((kind == JobType.ports) &&
       (match f.targets with
        | some ts => decide (0 < ts.length)
        | none => false)) ||
     ((kind == JobType.dirs) && truthyOptStr f.base_url))

/-- The attribute `disabled={!subdomainForm.domain || !subdomainForm.authorized}`
(viz-recon-main, subdomain submit button). -/
def vizSubdomainSubmitDisabled (domain : String) (authorized : Bool) : Bool :=
  !truthyStr domain || !authorized

/-- The attribute `disabled={!portForm.targets || !portForm.authorized}` (viz-recon-main,
port submit button; `targets` is the raw textarea string). -/
def vizPortSubmitDisabled (targets : String) (authorized : Bool) : Bool :=
  !truthyStr targets || !authorized

/-- The attribute `disabled={!dirForm.base_url || !dirForm.authorized}` (viz-recon-main,
directory submit button). -/
def vizDirSubmitDisabled (base_url : String) (authorized : Bool) : Bool :=
  !truthyStr base_url || !authorized

/-! ## Wordlist normalization (claim C3's two code paths) -/

/-- The expression `dirForm.wordlistText.split(/\r?\n/).map(s => s.trim()).filter(Boolean)`
from `handleDirScan` in viz-recon-main. -/
def vizNormalizeWordlistText (s : String) : List String :=
  (((splitReLines s.data).map fun l => String.mk (jsTrimChars l)).filter truthyStr)

/-- The expression `String(form.wordlistText).split(/\r?\n/).map(s=>s.trim()).filter(Boolean)`
from `NewScan.submit` in reconx/ui. -/
def reconxNormalizeWordlistText (s : String) : List String :=
  (((splitReLines s.data).map fun l => String.mk (jsTrimChars l)).filter truthyStr)

/-! ## Backend-online indicator -/

/-- The `Dashboard` state read and written by the polling callbacks of
viz-recon-main. -/
structure VizDashboardState where
  metrics : Option Metrics := none
  jobs : List Job := []
  isBackendOnline : Bool := false
deriving DecidableEq

/-- One run of `fetchMetrics` (viz-recon-main): `metricsResp` is the outcome of
`fetchJson('/metrics')` (`none` = threw, including non-ok responses),
`healthResp` the outcome of the fallback health fetch (`some ok` = a response
with that `ok` flag, `none` = the fetch itself threw). -/
def fetchMetricsStep (st : VizDashboardState) (metricsResp : Option Metrics)
    (healthResp : Option Bool) : VizDashboardState :=
  match metricsResp with
  | some m => { st with metrics := some m, isBackendOnline := true }
  | none =>
    match healthResp with
    | some ok => { st with isBackendOnline := ok }
    | none => { st with isBackendOnline := false }

/-- One run of `fetchJobs` (viz-recon-main): on success replace the jobs list,
on failure only log. -/
def fetchJobsStep (st : VizDashboardState) (jobsResp : Option (List Job)) :
    VizDashboardState :=
  match jobsResp with
  | some js => { st with jobs := js }
  | none => st

/-- The `online` value set by one `check` run of `useBackendHealth`
(reconx/ui): `setOnline(r.ok)`, and `setOnline(false)` when the fetch throws. -/
def useBackendHealthOnline (resp : Option Bool) : Bool :=
  match resp with
  | some ok => ok
  | none => false

/-! ## Report building and TXT export (`Dashboard` in viz-recon-main) -/

/-- The value `job.type.toUpperCase()` for the three job types. -/
def typeUpper : JobType → String
  | JobType.subdomains => "SUBDOMAINS"
  | JobType.ports => "PORTS"
  | JobType.dirs => "DIRS"

/-- Function `formatJobLabel` from the viz-recon-main `Dashboard`.  The final
``` `${j.id} • ${when}` ``` fallback of the source is unreachable here because
`Job.type` ranges over exactly the three declared types. -/
def formatJobLabel (j : Job) : String :=
  let when := match j.created_at with
    | some d => formatDateTime (some d) none
    | none => ""
  match j.type with
  | JobType.dirs => jsOrStr j.base_url "URL" ++ " • " ++ when
  | JobType.subdomains => jsOrStr j.domain "Domain" ++ " • " ++ when
  | JobType.ports =>
    (match j.targets with
     | some (t :: _) => if truthyStr t then t else "Targets"
     | _ => "Targets") ++ " • " ++ when

/-- A report table as returned by `buildReportTable`. -/
structure ReportTable where
  headers : List String
  rows : List (List String)
deriving DecidableEq

/-- One dirs row of `buildReportTable`: `[String(f.url || ''),
String(f.status ?? f.code ?? f.http_status ?? ''), String(f.length ?? ''),
String(f.title || ''), String(f.content_type || ''),
String(f.redirected_to ?? '')]`. -/
def dirReportRow (f : Finding) : List String :=
  [jsOrStr f.url "",
   ((f.status <|> f.code) <|> f.http_status).getD "",
   (match f.length with | some n => toString n | none => ""),
   jsOrStr f.title "",
   jsOrStr f.content_type "",
   f.redirected_to.getD ""]

/-- One ports row of `buildReportTable`: `[String(f.target || ''),
String(f.port ?? ''), String(f.status || ''), String(f.banner || '')]`. -/
def portReportRow (f : Finding) : List String :=
  [jsOrStr f.target "",
   (match f.port with | some n => toString n | none => ""),
   jsOrStr f.status "",
   jsOrStr f.banner ""]

/-- One subdomains row of `buildReportTable`: `[String(f.subdomain || ''),
Array.isArray(f.resolved_ips) ? f.resolved_ips.join(', ') : '',
f.first_seen ? formatDateTime(f.first_seen) : '',
f.last_seen ? formatDateTime(f.last_seen) : '']`. -/
def subdomainReportRow (f : Finding) : List String :=
  [jsOrStr f.subdomain "",
   (match f.resolved_ips with
    | some ips => String.intercalate ", " ips
    | none => ""),
   (match f.first_seen with
    | some d => formatDateTime (some d) none
    | none => ""),
   (match f.last_seen with
    | some d => formatDateTime (some d) none
    | none => "")]

/-- Function `buildReportTable(job, findings)` from the viz-recon-main `Dashboard`. -/
def buildReportTable (job : Job) (findings : List Finding) : ReportTable :=
  match job.type with
  | JobType.dirs =>
    { headers := ["URL", "Status", "Length", "Title", "Type", "Redirect"],
      rows := findings.map dirReportRow }
  | JobType.ports =>
    { headers := ["Target", "Port", "Status", "Banner"],
      rows := findings.map portReportRow }
  | JobType.subdomains =>
    { headers := ["Subdomain", "IPs", "First Seen", "Last Seen"],
      rows := findings.map subdomainReportRow }

/-- The first pushed line of `exportTXT`:
``` `# ReconX Report — ${job.type.toUpperCase()} (${formatJobLabel(job)})` ```. -/
def reportTitleLine (job : Job) : String :=
  "# ReconX Report — " ++ typeUpper job.type ++ " (" ++ formatJobLabel job ++ ")"

/-- The second pushed line of `exportTXT`:
``` `Generated: ${formatDateTime(new Date())}` ```; `now` is the `Date`
produced by `new Date()`. -/
def generatedLine (now : JSDate) : String :=
  "Generated: " ++ formatDateTime (some now) none

/-- The `lines` array built by `exportTXT` from the single findings snapshot
`findings` (the one `fetchJson` result).  Cells are already strings, so the
source's `row.map(c => String(c))` is the identity. -/
def exportTxtLines (job : Job) (now : JSDate) (findings : List Finding) :
    List String :=
  let table := buildReportTable job findings
  reportTitleLine job :: generatedLine now :: "" ::
    jsJoin '\t' table.headers :: table.rows.map fun r => jsJoin '\t' r

/-- The exported TXT content: `lines.join('\n')`. -/
def exportTxtContent (job : Job) (now : JSDate) (findings : List Finding) : String :=
  jsJoin '\n' (exportTxtLines job now findings)

/-- Modelled from the claim's re-parse procedure (claim C6): split the exported
content into lines, drop the two preamble lines and the blank separator, and
split each remaining line on tab characters. -/
def parseExportedReport (content : String) : List (List String) :=
  ((jsSplitOn '\n' content).drop 3).map fun line => jsSplitOn '\t' line

/-! ## Helper lemmas -/

theorem mk_data (s : String) : String.mk s.data = s := rfl

theorem empty_append_str (s : String) : "" ++ s = s := by
  cases s
  rfl

theorem splitOnCharAux_append (c : Char) (l : List Char) :
    ∀ (s acc : List Char), c ∉ l →
      splitOnCharAux c (l ++ s) acc = splitOnCharAux c s (l.reverse ++ acc) := by
  induction l with
  | nil => intro s acc _; simp
  | cons x xs ih =>
    intro s acc h
    simp only [List.mem_cons, not_or] at h
    simp only [List.cons_append, splitOnCharAux]
    rw [if_neg (show ¬ x = c from fun hc => h.1 hc.symm),
      show xs.append s = xs ++ s from rfl, ih s (x :: acc) h.2]
    simp [List.append_assoc]

theorem splitOnChar_joinWithChar (c : Char) :
    ∀ (ls : List (List Char)), ls ≠ [] → (∀ l ∈ ls, c ∉ l) →
      splitOnChar c (joinWithChar c ls) = ls := by
  intro ls
  induction ls with
  | nil => intro h _; exact absurd rfl h
  | cons l ls ih =>
    intro _ hmem
    cases ls with
    | nil =>
      show splitOnChar c l = [l]
      unfold splitOnChar
      have h0 := splitOnCharAux_append c l [] [] (hmem l (by simp))
      simp only [List.append_nil] at h0
      rw [h0]
      simp [splitOnCharAux]
    | cons l2 ls2 =>
      show splitOnChar c (l ++ c :: joinWithChar c (l2 :: ls2)) = l :: l2 :: ls2
      unfold splitOnChar
      rw [splitOnCharAux_append c l _ [] (hmem l (by simp))]
      have h2 := ih (by simp) (fun x hx => hmem x (List.mem_cons_of_mem _ hx))
      unfold splitOnChar at h2
      simp [splitOnCharAux, h2]

theorem notMem_joinWithChar (c sep : Char) (hc : c ≠ sep) :
    ∀ (ls : List (List Char)), (∀ l ∈ ls, c ∉ l) → c ∉ joinWithChar sep ls := by
  intro ls
  induction ls with
  | nil => intro _; simp [joinWithChar]
  | cons l ls ih =>
    intro hmem
    cases ls with
    | nil => exact hmem l (by simp)
    | cons l2 ls2 =>
      show c ∉ l ++ sep :: joinWithChar sep (l2 :: ls2)
      simp only [List.mem_append, List.mem_cons, not_or]
      exact ⟨hmem l (by simp), hc,
        ih (fun x hx => hmem x (List.mem_cons_of_mem _ hx))⟩

theorem map_mk_data (xs : List String) :
    xs.map (fun s => String.mk s.data) = xs := by
  induction xs with
  | nil => rfl
  | cons a as ih => simp [mk_data, ih]

theorem jsSplitOn_jsJoin (c : Char) (ls : List String) (hne : ls ≠ [])
    (h : ∀ s ∈ ls, c ∉ s.data) : jsSplitOn c (jsJoin c ls) = ls := by
  unfold jsSplitOn jsJoin
  have hdata : (String.mk (joinWithChar c (ls.map String.data))).data =
      joinWithChar c (ls.map String.data) := rfl
  rw [hdata, splitOnChar_joinWithChar c (ls.map String.data)
        (by simpa using hne)
        (by
          intro l hl
          obtain ⟨s, hs, rfl⟩ := List.mem_map.mp hl
          exact h s hs),
      List.map_map]
  exact map_mk_data ls

theorem notMem_data_jsJoin (c sep : Char) (hc : c ≠ sep) (ls : List String)
    (h : ∀ s ∈ ls, c ∉ s.data) : c ∉ (jsJoin sep ls).data := by
  unfold jsJoin
  exact notMem_joinWithChar c sep hc (ls.map String.data)
    (by
      intro l hl
      obtain ⟨s, hs, rfl⟩ := List.mem_map.mp hl
      exact h s hs)

theorem two_le_pad_length (n : Nat) : 2 ≤ (pad n).length := by
  unfold pad jsPadStart
  split
  · omega
  · have hd : ((String.mk (List.replicate (2 - (toString n).length) '0') ++
        toString n)).length =
        (2 - (toString n).length) + (toString n).length := by
      show ((String.mk _ : String) ++ toString n).data.length = _
      simp [String.data_append]
    omega

/-! ## Claim theorems -/

/-- C3: both submission paths normalize a wordlist supplied as text
identically: split on newlines (with or without carriage return), trim each
entry, drop blanks — the two code paths produce the same list for the same
input text. -/
theorem wordlist_normalization_paths_agree (s : String) :
    vizNormalizeWordlistText s = reconxNormalizeWordlistText s := rfl

/-- C4: in the jobs panel, the pause control is offered exactly for state
`running`, the resume control exactly for `paused`, the cancel control exactly
for `running` or `paused`; no pause/resume/cancel control is offered for a job
in a terminal state. -/
theorem jobs_panel_control_visibility (st : JobState) :
    (showPauseButton RightPanelTab.jobs st = true ↔ st = JobState.running) ∧
    (showResumeButton RightPanelTab.jobs st = true ↔ st = JobState.paused) ∧
    (showCancelButton RightPanelTab.jobs st = true ↔
      (st = JobState.running ∨ st = JobState.paused)) ∧
    ((st = JobState.completed ∨ st = JobState.cancelled ∨ st = JobState.failed) →
      showPauseButton RightPanelTab.jobs st = false ∧
      showResumeButton RightPanelTab.jobs st = false ∧
      showCancelButton RightPanelTab.jobs st = false) := by
  cases st <;> simp [showPauseButton, showResumeButton, showCancelButton]

/-- Witness for C4 at a terminal state: a completed job gets none of the three
controls. -/
theorem jobs_panel_control_visibility_witness :
    showPauseButton RightPanelTab.jobs JobState.completed = false ∧
    showResumeButton RightPanelTab.jobs JobState.completed = false ∧
    showCancelButton RightPanelTab.jobs JobState.completed = false :=
  (jobs_panel_control_visibility JobState.completed).2.2.2 (Or.inl rfl)

/-- C7: the backend-online indicator depends only on the success of the
metrics/health responses: two `fetchMetrics` runs from any two dashboard
states (in particular, with any job lists and job states) and with the same
response outcomes set the same online flag; a `fetchJobs` run never changes
the flag; and the reconx/ui `useBackendHealth` flag is exactly the `ok` flag
of the health response (false when the fetch throws). -/
theorem backend_online_depends_only_on_responses (st st2 : VizDashboardState)
    (m m2 : Option Metrics) (h : Option Bool) (js : Option (List Job)) :
    (m.isSome = m2.isSome →
      (fetchMetricsStep st m h).isBackendOnline =
        (fetchMetricsStep st2 m2 h).isBackendOnline) ∧
    ((fetchJobsStep st js).isBackendOnline = st.isBackendOnline) ∧
    (∀ r : Option Bool, useBackendHealthOnline r = r.getD false) := by
  refine ⟨?_, ?_, ?_⟩
  · intro hsome
    cases m <;> cases m2 <;> cases h <;> simp_all [fetchMetricsStep]
  · cases js <;> rfl
  · intro r; cases r <;> rfl

/-- Witness for C7: a metrics failure followed by an ok health response sets
the flag to true from two states with different job lists. -/
theorem backend_online_depends_only_on_responses_witness :
    (fetchMetricsStep { jobs := [⟨"1", JobType.dirs, JobState.failed, 0,
        none, none, none, some "b"⟩] } none (some true)).isBackendOnline =
      (fetchMetricsStep { jobs := [] } none (some true)).isBackendOnline :=
  (backend_online_depends_only_on_responses
    { jobs := [⟨"1", JobType.dirs, JobState.failed, 0, none, none, none, some "b"⟩] }
    { jobs := [] } none none (some true) none).1 rfl

/-- C10: the dirs status-bucket classification sends every finite numeric
status `s` to `"5xx"` when `s ≥ 500`, `"4xx"` when `400 ≤ s < 500`, `"3xx"`
when `300 ≤ s < 400`, and `"2xx"` for every other finite value (so statuses
below 200 are bucketed and filtered as `"2xx"`), while a non-numeric status
gets the empty bucket and matches no non-empty bucket filter. -/
theorem dir_status_bucket_classification (v : Int) (filt : String) :
    (500 ≤ v → dirStatusBucket (some v) = "5xx") ∧
    (400 ≤ v → v < 500 → dirStatusBucket (some v) = "4xx") ∧
    (300 ≤ v → v < 400 → dirStatusBucket (some v) = "3xx") ∧
    (v < 300 → dirStatusBucket (some v) = "2xx") ∧
    (filt ≠ "" → dirStatusFilterOk filt (dirStatusBucket none) = false) := by
  refine ⟨?_, ?_, ?_, ?_, ?_⟩
  · intro hv
    simp only [dirStatusBucket]
    rw [if_pos (by omega)]
  · intro h1 h2
    simp only [dirStatusBucket]
    rw [if_neg (by omega), if_pos (by omega)]
  · intro h1 h2
    simp only [dirStatusBucket]
    rw [if_neg (by omega), if_neg (by omega), if_pos (by omega)]
  · intro h1
    simp only [dirStatusBucket]
    rw [if_neg (by omega), if_neg (by omega), if_neg (by omega)]
  · intro hf
    simp [dirStatusBucket, dirStatusFilterOk, truthyStr, hf]

/-- Witness for C10: status 101 is bucketed as `"2xx"`, and a non-numeric
status fails the `"4xx"` filter. -/
theorem dir_status_bucket_classification_witness :
    dirStatusBucket (some 101) = "2xx" ∧
    dirStatusFilterOk "4xx" (dirStatusBucket none) = false :=
  ⟨(dir_status_bucket_classification 101 "4xx").2.2.2.1 (by decide),
   (dir_status_bucket_classification 101 "4xx").2.2.2.2 (by decide)⟩

/-- C1: for a job whose type is one of the three declared scan types, the
findings retained by `JobDetailsModal.refresh` are exactly those whose
`job_id` (as a string) equals the job's id and whose `kind` equals the kind
corresponding to the job's type; every mismatching finding is excluded. -/
theorem job_findings_filter_exact (jid t : String) (fs : List Finding)
    (f : Finding) (ht : t = "dirs" ∨ t = "ports" ∨ t = "subdomains") :
    f ∈ refreshPurify jid t fs ↔
      (f ∈ fs ∧ f.job_id.getD "" = jid ∧ f.kind = expectedKindFor t) := by
  rcases ht with rfl | rfl | rfl <;>
    simp [refreshPurify, expectedKindFor, List.mem_filter, and_assoc]

/-- Witness for C1: a matching dir finding is retained, a mismatching one is
dropped. -/
theorem job_findings_filter_exact_witness :
    ({ job_id := some "1", kind := some "dir" } : Finding) ∈
      refreshPurify "1" "dirs"
        [{ job_id := some "1", kind := some "dir" },
         { job_id := some "2", kind := some "dir" }] ∧
    ({ job_id := some "2", kind := some "dir" } : Finding) ∉
      refreshPurify "1" "dirs"
        [{ job_id := some "1", kind := some "dir" },
         { job_id := some "2", kind := some "dir" }] :=
  ⟨(job_findings_filter_exact "1" "dirs" _ _ (Or.inl rfl)).mpr
      ⟨by simp, rfl, rfl⟩,
   fun hmem =>
     by
       have h2 := (job_findings_filter_exact "1" "dirs" _ _ (Or.inl rfl)).mp hmem
       simpa using h2.2.1⟩

/-- C2: a scan cannot be submitted unless the authorized flag is set and the
kind's required target field is non-empty.  In reconx/ui the `valid` guard is
true exactly when `authorized` holds and the kind's target field is non-empty
(domain for subdomains, a non-empty targets array for ports, base_url for
dirs); in viz-recon-main each submit button is enabled (not disabled) exactly
when `authorized` holds and the form's target field is non-empty.  In every
other case the guard blocks submission, so no create-job request is issued
when `authorized` is false. -/
theorem scan_submit_guard (f : NewScanForm) (k : JobType)
    (domain targets base_url : String) (auth : Bool) :
    (newScanValid k f = true → f.authorized = true) ∧
    (newScanValid JobType.subdomains f = true ↔
      f.authorized = true ∧ ∃ d, f.domain = some d ∧ d ≠ "") ∧
    (newScanValid JobType.ports f = true ↔
      f.authorized = true ∧ ∃ ts, f.targets = some ts ∧ ts ≠ []) ∧
    (newScanValid JobType.dirs f = true ↔
      f.authorized = true ∧ ∃ b, f.base_url = some b ∧ b ≠ "") ∧
    (vizSubdomainSubmitDisabled domain auth = false ↔ domain ≠ "" ∧ auth = true) ∧
    (vizPortSubmitDisabled targets auth = false ↔ targets ≠ "" ∧ auth = true) ∧
    (vizDirSubmitDisabled base_url auth = false ↔ base_url ≠ "" ∧ auth = true) := by
  obtain ⟨a0, d0, t0, b0⟩ := f
  refine ⟨?_, ?_, ?_, ?_, ?_, ?_, ?_⟩
  · intro hv
    cases a0
    · rw [newScanValid] at hv
      simp at hv
    · rfl
  · cases d0 with
    | none => simp [newScanValid, truthyOptStr]
    | some d => cases a0 <;> simp [newScanValid, truthyOptStr, truthyStr]
  · cases t0 with
    | none => simp [newScanValid, truthyOptStr]
    | some ts =>
      cases a0 <;> simp [newScanValid, truthyOptStr, List.length_pos]
  · cases b0 with
    | none => simp [newScanValid, truthyOptStr]
    | some b => cases a0 <;> simp [newScanValid, truthyOptStr, truthyStr]
  · cases auth <;> simp [vizSubdomainSubmitDisabled, truthyStr]
  · cases auth <;> simp [vizPortSubmitDisabled, truthyStr]
  · cases auth <;> simp [vizDirSubmitDisabled, truthyStr]

/-- Witness for C2: an unauthorized subdomains form is rejected by the
reconx/ui guard, and an authorized one with a domain passes; the viz
subdomains button is enabled for an authorized non-empty form. -/
theorem scan_submit_guard_witness :
    newScanValid JobType.subdomains
        { authorized := false, domain := some "example.com" } ≠ true ∧
    newScanValid JobType.subdomains
        { authorized := true, domain := some "example.com" } = true ∧
    vizSubdomainSubmitDisabled "example.com" true = false :=
  ⟨fun hv =>
      by
        have h2 := (scan_submit_guard
          { authorized := false, domain := some "example.com" }
          JobType.subdomains "example.com" "" "" true).1 hv
        simp at h2,
   (scan_submit_guard { authorized := true, domain := some "example.com" }
      JobType.subdomains "example.com" "" "" true).2.1.mpr
      ⟨rfl, "example.com", rfl, by decide⟩,
   (scan_submit_guard { authorized := true, domain := some "example.com" }
      JobType.subdomains "example.com" "" "" true).2.2.2.2.1.mpr
      ⟨by decide, rfl⟩⟩

/-- C9: `formatDateTime` is total; a `null`/`undefined` value or an invalid
date yields the fallback string (`"N/A"` unless overridden), and a valid date
yields a string of the shape `Y-M-D h:m:s` (with `" UTC"` appended exactly
when the `utc` option is set), in which the month, day, hour, minute and
second components are zero-padded to at least two digits. -/
theorem formatDateTime_spec (value : Option JSDate) (opts : Option FmtOpts) :
    (value = none →
      formatDateTime value opts = (opts.bind FmtOpts.fallback).getD "N/A") ∧
    (∀ d, value = some d → d.valid = false →
      formatDateTime value opts = (opts.bind FmtOpts.fallback).getD "N/A") ∧
    (∀ d, value = some d → d.valid = true →
      ∃ sY sM sD sh sm ss : String,
        2 ≤ sM.length ∧ 2 ≤ sD.length ∧ 2 ≤ sh.length ∧ 2 ≤ sm.length ∧
        2 ≤ ss.length ∧
        formatDateTime value opts =
          sY ++ "-" ++ sM ++ "-" ++ sD ++ " " ++ sh ++ ":" ++ sm ++ ":" ++ ss ++
            (if (opts.bind FmtOpts.utc).getD false then " UTC" else "")) := by
  refine ⟨?_, ?_, ?_⟩
  · rintro rfl
    rfl
  · rintro d rfl hvalid
    simp [formatDateTime, hvalid]
  · rintro d rfl hvalid
    by_cases hutc : (opts.bind FmtOpts.utc).getD false
    · exact ⟨toString d.utcParts.year, pad (d.utcParts.month + 1),
        pad d.utcParts.day, pad d.utcParts.hours, pad d.utcParts.minutes,
        pad d.utcParts.seconds, two_le_pad_length _, two_le_pad_length _,
        two_le_pad_length _, two_le_pad_length _, two_le_pad_length _,
        by simp [formatDateTime, hvalid, hutc]⟩
    · exact ⟨toString d.localParts.year, pad (d.localParts.month + 1),
        pad d.localParts.day, pad d.localParts.hours, pad d.localParts.minutes,
        pad d.localParts.seconds, two_le_pad_length _, two_le_pad_length _,
        two_le_pad_length _, two_le_pad_length _, two_le_pad_length _,
        by simp [formatDateTime, hvalid, hutc]⟩

/-- Witness for C9: the fallback on `null`, the overridden fallback on an
invalid date, and the padded shape on a concrete valid date. -/
theorem formatDateTime_spec_witness :
    formatDateTime none none = "N/A" ∧
    formatDateTime (some ⟨false, ⟨2024, 0, 2, 3, 4, 5⟩, ⟨2024, 0, 2, 3, 4, 5⟩⟩)
        (some { fallback := some "missing" }) = "missing" ∧
    (∃ sY sM sD sh sm ss : String,
      2 ≤ sM.length ∧ 2 ≤ sD.length ∧ 2 ≤ sh.length ∧ 2 ≤ sm.length ∧
      2 ≤ ss.length ∧
      formatDateTime (some ⟨true, ⟨2024, 0, 2, 3, 4, 5⟩, ⟨2024, 0, 2, 3, 4, 5⟩⟩)
          none =
        sY ++ "-" ++ sM ++ "-" ++ sD ++ " " ++ sh ++ ":" ++ sm ++ ":" ++ ss ++
          (if (Option.bind (none : Option FmtOpts) FmtOpts.utc).getD false
           then " UTC" else "")) :=
  ⟨(formatDateTime_spec none none).1 rfl,
   (formatDateTime_spec
      (some ⟨false, ⟨2024, 0, 2, 3, 4, 5⟩, ⟨2024, 0, 2, 3, 4, 5⟩⟩)
      (some { fallback := some "missing" })).2.1 _ rfl rfl,
   (formatDateTime_spec
      (some ⟨true, ⟨2024, 0, 2, 3, 4, 5⟩, ⟨2024, 0, 2, 3, 4, 5⟩⟩)
      none).2.2 _ rfl rfl⟩

/-- C5: the report table has exactly one row per finding, in the findings
list's order; its header set is fixed by the job's type and matches the
kind's payload fields; and the exported TXT report is built entirely from the
table of the single fetched findings snapshot. -/
theorem report_table_rows_and_headers (job : Job) (now : JSDate)
    (fs : List Finding) :
    (buildReportTable job fs).rows.length = fs.length ∧
    (buildReportTable job fs).rows =
      fs.map (fun f =>
        match job.type with
        | JobType.dirs => dirReportRow f
        | JobType.ports => portReportRow f
        | JobType.subdomains => subdomainReportRow f) ∧
    (buildReportTable job fs).headers =
      (match job.type with
       | JobType.dirs => ["URL", "Status", "Length", "Title", "Type", "Redirect"]
       | JobType.ports => ["Target", "Port", "Status", "Banner"]
       | JobType.subdomains => ["Subdomain", "IPs", "First Seen", "Last Seen"]) ∧
    exportTxtLines job now fs =
      reportTitleLine job :: generatedLine now :: "" ::
        jsJoin '\t' (buildReportTable job fs).headers ::
          (buildReportTable job fs).rows.map (fun r => jsJoin '\t' r) := by
  obtain ⟨i0, ty, st0, pr, ca, tg, dm, bu⟩ := job
  cases ty <;>
    exact ⟨by simp [buildReportTable], rfl, rfl, rfl⟩

/-- Counterexample for C6: a dirs finding whose title contains a tab character
makes the re-parsed TXT report disagree with the report table (the tab inside
the cell is indistinguishable from a column separator). -/
theorem export_txt_roundtrip_counterexample :
    parseExportedReport
        (exportTxtContent
          { id := "1", type := JobType.dirs, state := JobState.completed,
            progress := 100, base_url := some "b" }
          ⟨true, ⟨2024, 0, 2, 3, 4, 5⟩, ⟨2024, 0, 2, 3, 4, 5⟩⟩
          [{ url := some "u", status := some "200", title := some "a\tb" }]) ≠
      (buildReportTable
          { id := "1", type := JobType.dirs, state := JobState.completed,
            progress := 100, base_url := some "b" }
          [{ url := some "u", status := some "200", title := some "a\tb" }]).headers ::
        (buildReportTable
          { id := "1", type := JobType.dirs, state := JobState.completed,
            progress := 100, base_url := some "b" }
          [{ url := some "u", status := some "200", title := some "a\tb" }]).rows := by
  decide

/-- C6 (amended): provided no cell of the report table contains a tab or a
newline and neither preamble line contains a newline, re-parsing the exported
TXT content (split into lines, drop the two preamble lines and the blank
separator, split each remaining line on tabs) reproduces exactly the header
row followed by the data rows of the table built directly from the findings
list. -/
theorem export_txt_roundtrip (job : Job) (now : JSDate) (fs : List Finding)
    (hcells : ∀ r ∈ (buildReportTable job fs).headers ::
        (buildReportTable job fs).rows,
      ∀ c ∈ r, '\t' ∉ c.data ∧ '\n' ∉ c.data)
    (htitle : '\n' ∉ (reportTitleLine job).data)
    (hgen : '\n' ∉ (generatedLine now).data) :
    parseExportedReport (exportTxtContent job now fs) =
      (buildReportTable job fs).headers :: (buildReportTable job fs).rows := by
  have hheaders_ne : (buildReportTable job fs).headers ≠ [] := by
    obtain ⟨i0, ty, st0, pr, ca, tg, dm, bu⟩ := job
    cases ty <;> simp [buildReportTable]
  have hrows_ne : ∀ r ∈ (buildReportTable job fs).rows, r ≠ [] := by
    obtain ⟨i0, ty, st0, pr, ca, tg, dm, bu⟩ := job
    cases ty <;>
      · intro r hr
        simp only [buildReportTable, List.mem_map] at hr
        obtain ⟨f, _, rfl⟩ := hr
        simp [dirReportRow, portReportRow, subdomainReportRow]
  have hsplit : jsSplitOn '\n' (exportTxtContent job now fs) =
      exportTxtLines job now fs := by
    apply jsSplitOn_jsJoin
    · simp [exportTxtLines]
    · intro s hs
      simp only [exportTxtLines, List.mem_cons] at hs
      rcases hs with rfl | rfl | rfl | rfl | hs
      · exact htitle
      · exact hgen
      · decide
      · exact notMem_data_jsJoin '\n' '\t' (by decide) _
          (fun c hc => (hcells _ (by simp) c hc).2)
      · obtain ⟨r, hr, rfl⟩ := List.mem_map.mp hs
        exact notMem_data_jsJoin '\n' '\t' (by decide) _
          (fun c hc => (hcells r (by simp [hr]) c hc).2)
  unfold parseExportedReport
  rw [hsplit]
  show (List.drop 3 (reportTitleLine job :: generatedLine now :: "" ::
      jsJoin '\t' (buildReportTable job fs).headers ::
        (buildReportTable job fs).rows.map (fun r => jsJoin '\t' r))).map
      (fun line => jsSplitOn '\t' line) = _
  simp only [List.drop_succ_cons, List.drop_zero, List.map_cons, List.map_map]
  rw [jsSplitOn_jsJoin '\t' _ hheaders_ne
        (fun c hc ch => (hcells _ (by simp) c hc).1 ch)]
  congr 1
  have hmap : ∀ r ∈ (buildReportTable job fs).rows,
      ((fun line => jsSplitOn '\t' line) ∘ fun r => jsJoin '\t' r) r = id r := by
    intro r hr
    exact jsSplitOn_jsJoin '\t' r (hrows_ne r hr)
      (fun c hc ch => (hcells r (by simp [hr]) c hc).1 ch)
  rw [List.map_congr_left hmap, List.map_id]

/-- Witness for C6 (amended): on a tab-free and newline-free findings list the
re-parsed TXT report equals the header row followed by the data rows. -/
theorem export_txt_roundtrip_witness :
    parseExportedReport
        (exportTxtContent
          { id := "1", type := JobType.dirs, state := JobState.completed,
            progress := 100, base_url := some "b" }
          ⟨true, ⟨2024, 0, 2, 3, 4, 5⟩, ⟨2024, 0, 2, 3, 4, 5⟩⟩
          [{ url := some "u", status := some "200", title := some "t" }]) =
      (buildReportTable
          { id := "1", type := JobType.dirs, state := JobState.completed,
            progress := 100, base_url := some "b" }
          [{ url := some "u", status := some "200", title := some "t" }]).headers ::
        (buildReportTable
          { id := "1", type := JobType.dirs, state := JobState.completed,
            progress := 100, base_url := some "b" }
          [{ url := some "u", status := some "200", title := some "t" }]).rows :=
  export_txt_roundtrip _ _ _ (by decide) (by decide) (by decide)

/-- Counterexample for C8: with a configured base of `"http://h//"` (settable
through `VITE_API_BASE_URL` or `localStorage`), `apiBase` returns
`"http://h/"` — non-empty and still ending in `'/'`, because
`replace(/\/$/, '')` strips only a single trailing slash. -/
theorem apiBase_trailing_slash_counterexample :
    apiBase (some "http://h//") none false ≠ "" ∧
    jsEndsWith (apiBase (some "http://h//") none false) "/" = true := by
  decide

/-- C8 (amended): for every path `p`, `api(p) = B ++ pre ++ p2` where `p2` is
`p` with a leading `'/'` prepended when absent and `pre = "/api"` exactly when
`p2` starts with neither `"/api/"` nor `"/healthz"`; and `B = apiBase()` is
either the empty string or the configured base URL — which starts with
`"http://"` or `"https://"` — with a single trailing `'/'` stripped (so `B`
may still end in `'/'` when the configured base ends in `"//"`, and loses the
final slash of the scheme when the base is exactly the scheme prefix). -/
theorem api_url_structure (envBase storedBase : Option String) (dev : Bool)
    (path : String) :
    api envBase storedBase dev path =
      apiBase envBase storedBase dev ++
        (if !(jsStartsWith (normalizePath path) "/api/") &&
            !(jsStartsWith (normalizePath path) "/healthz") then "/api" else "") ++
        normalizePath path ∧
    (apiBase envBase storedBase dev = "" ∨
      ∃ b, apiBaseRaw envBase storedBase dev = some b ∧
        (jsStartsWith b "http://" || jsStartsWith b "https://") = true ∧
        apiBase envBase storedBase dev = stripTrailingSlash b) := by
  refine ⟨?_, ?_⟩
  · show (if truthyStr (apiBase envBase storedBase dev)
        then apiBase envBase storedBase dev ++
          (if !(jsStartsWith (normalizePath path) "/healthz") &&
              !(jsStartsWith (normalizePath path) "/api/") then "/api" else "") ++
          normalizePath path
        else (if !(jsStartsWith (normalizePath path) "/healthz") &&
              !(jsStartsWith (normalizePath path) "/api/") then "/api" else "") ++
          normalizePath path) = _
    rw [Bool.and_comm]
    split
    · rfl
    · next hb =>
      have hbase : apiBase envBase storedBase dev = "" := by
        simp [truthyStr] at hb
        exact hb
      rw [hbase, empty_append_str]
  · cases hr : apiBaseRaw envBase storedBase dev with
    | none => exact Or.inl (by unfold apiBase; rw [hr])
    | some b =>
      by_cases hsw : (jsStartsWith b "http://" || jsStartsWith b "https://") = true
      · refine Or.inr ⟨b, rfl, hsw, ?_⟩
        unfold apiBase
        rw [hr]
        show (if jsStartsWith b "http://" || jsStartsWith b "https://"
            then stripTrailingSlash b else "") = stripTrailingSlash b
        rw [if_pos hsw]
      · refine Or.inl ?_
        unfold apiBase
        rw [hr]
        show (if jsStartsWith b "http://" || jsStartsWith b "https://"
            then stripTrailingSlash b else "") = ""
        rw [if_neg hsw]

end ReconX
